import Mathlib

/-!
Verification of `process_spending.py` (USAspending FY2017–2025 contract
transaction merger).

The script is a single-pass pandas batch job:
  discover → read_csv(usecols, dtype=str) → rename → lenient coercions →
  fiscal-year derivation → concat → export → summary.

We embed it shallowly.  A raw CSV file is a header plus rows of optional
string cells (`read_csv` has already applied its missing-value detection,
so a missing/NA-rendered field is `none`).  A dataframe (`Df`) is a list of
column names plus rows of typed cells.  The pandas library calls used by the
script (`pd.to_datetime`, `pd.to_numeric`, string truncation, `pd.concat`,
`groupby(...).size().sort_index()`) are modelled by executable Lean
functions that reproduce their behaviour on the value shapes the script
actually feeds them.
-/

/-- A calendar date (as produced by `pd.to_datetime` on a well-formed
string). -/
structure Date where
  year : Nat
  month : Nat
  day : Nat
deriving DecidableEq, Repr

/-- `True` for leap years of the Gregorian calendar. -/
def isLeap (y : Nat) : Bool :=
  y % 4 == 0 && (y % 100 != 0 || y % 400 == 0)

/-- Number of days in a month. -/
def daysInMonth (y m : Nat) : Nat :=
  if m == 1 || m == 3 || m == 5 || m == 7 || m == 8 || m == 10 || m == 12 then 31
  else if m == 4 || m == 6 || m == 9 || m == 11 then 30
  else if m == 2 then (if isLeap y then 29 else 28)
  else 0

/-- Split a character list at every occurrence of a separator (the list
analogue of Python `str.split(sep)`): always returns at least one part. -/
def splitOnChar (sep : Char) : List Char → List (List Char)
  | [] => [[]]
  | c :: cs =>
    match splitOnChar sep cs with
    | r :: rs => if c == sep then [] :: r :: rs else (c :: r) :: rs
    | [] => if c == sep then [[], []] else [[c]]

/-- Value of an all-digit character list; `none` if any character is not a
digit.  (The empty list yields `some 0`; callers exclude it separately.) -/
def digitsVal? (cs : List Char) : Option Nat :=
  if cs.all Char.isDigit then
    some (cs.foldl (fun n c => n * 10 + (c.toNat - 48)) 0)
  else none

/-- Model of `pd.to_datetime(_, errors="coerce")` on a single string, for the
ISO `YYYY-MM-DD` shape of the extracts: parse and validate, `none` on any
failure. -/
def parseDate (s : String) : Option Date :=
  match splitOnChar '-' s.toList with
  | [ys, ms, ds] =>
    if ys.isEmpty || ms.isEmpty || ds.isEmpty then none
    else
      match digitsVal? ys, digitsVal? ms, digitsVal? ds with
      | some y, some m, some d =>
        if 1 ≤ m && m ≤ 12 && 1 ≤ d && d ≤ daysInMonth y m then
          some ⟨y, m, d⟩
        else none
      | _, _, _ => none
  | _ => none

/-- Model of `pd.to_numeric(_, errors="coerce")` on a single string: a plain
decimal literal (optional sign, digits, optional fractional part) parses to a
rational; anything else (commas, letters, …) yields `none`. -/
def parseNumeric (s : String) : Option Rat :=
  let (sgn, body) : Int × List Char :=
    match s.toList with
    | '-' :: rest => (-1, rest)
    | '+' :: rest => (1, rest)
    | cs => (1, cs)
  match splitOnChar '.' body with
  | [ip] =>
    if ip.isEmpty then none
    else (digitsVal? ip).map (fun n => ((sgn * n : Int) : Rat))
  | [ip, fp] =>
    if ip.isEmpty && fp.isEmpty then none
    else
      match digitsVal? ip, digitsVal? fp with
      | some a, some b =>
        some ((sgn : Rat) * ((a : Rat) + (b : Rat) / ((10 : Rat) ^ fp.length)))
      | _, _ => none
  | _ => none

/-- A cell of a dataframe.  `null` stands for pandas NaN/NaT/NA. -/
inductive Cell where
  | null
  | str (s : String)
  | date (d : Date)
  | num (q : Rat)
  | int (n : Int)
deriving DecidableEq, Repr

/-- A raw cell as delivered by `read_csv(dtype=str)`: `none` is a
missing/NA-detected field, `some s` a string value. -/
def cellOfOpt : Option String → Cell
  | some s => .str s
  | none => .null

/-- `compute_fiscal_year` on one valid date:
`date_series.dt.year + (date_series.dt.month >= 10).astype(int)`. -/
def fiscalYearOfDate (d : Date) : Int :=
  (d.year : Int) + (if 10 ≤ d.month then 1 else 0)

/-- `compute_fiscal_year` on one cell: NaT rows propagate to NaN. -/
def computeFiscalYearCell : Cell → Cell
  | .date d => .int (fiscalYearOfDate d)
  | _ => .null

/-- `pd.to_datetime(_, errors="coerce")` on one cell. -/
def toDatetimeCoerce : Cell → Cell
  | .str s =>
    match parseDate s with
    | some d => .date d
    | none => .null
  | .date d => .date d
  | _ => .null

/-- `pd.to_numeric(_, errors="coerce")` on one cell. -/
def toNumericCoerce : Cell → Cell
  | .str s =>
    match parseNumeric s with
    | some q => .num q
    | none => .null
  | .num q => .num q
  | _ => .null

/-- The zip cleaning chain `.astype(str).str[:5].replace("nan", pd.NA)` on
one cell: `astype(str)` renders a missing value as the literal string
`"nan"`, then the first five characters are kept, then an exact `"nan"`
result is turned back into NA.  (Only string/NA cells occur in this column
at this point of the script.) -/
def zipClean : Cell → Cell
  | .str s =>
    let t := String.mk (s.toList.take 5)
    if t == "nan" then .null else .str t
  | .null => .null
  | c => c

/-- A raw delimited-text file: the header line and the data rows, each row a
list of optional string cells aligned with the header. -/
structure RawFile where
  header : List String
  rows : List (List (Option String))
deriving Repr

/-- A dataframe: named columns and rows of cells, positionally aligned with
the column list. -/
structure Df where
  cols : List String
  rows : List (List Cell)
deriving Repr

/-- The cell of a row at a named column (first occurrence), `null` when the
column is absent or the row too short — pandas label-based access. -/
def getCell (cols : List String) (row : List Cell) (c : String) : Cell :=
  match cols.findIdx? (· == c) with
  | some i => row.getD i .null
  | none => .null

/-- `df[c] = df[c].map f`: replace the column named `c` (first occurrence)
pointwise.  If the column is absent the frame is unchanged (the script only
assigns to columns guaranteed present by `usecols`). -/
def setCol (df : Df) (c : String) (f : Cell → Cell) : Df :=
  match df.cols.findIdx? (· == c) with
  | some i => { df with rows := df.rows.map (fun r => r.set i (f (r.getD i .null))) }
  | none => df

/-- `df[newName] = df[src].map f`: append a derived column computed from the
column named `src`.  (In the script `newName` is `fiscal_year`, never among
the selected source columns.) -/
def addColFrom (df : Df) (src : String) (f : Cell → Cell) (newName : String) : Df :=
  match df.cols.findIdx? (· == src) with
  | some i =>
    { cols := df.cols ++ [newName]
      rows := df.rows.map (fun r => r ++ [f (r.getD i .null)]) }
  | none => df

/-- `COLUMN_MAP`: desired column name → actual CSV column name. -/
def COLUMN_MAP : List (String × String) :=
  [ ("award_amount", "federal_action_obligation"),
    ("action_date", "action_date"),
    ("period_of_performance_start_date", "period_of_performance_start_date"),
    ("naics_code", "naics_code"),
    ("product_or_service_code", "product_or_service_code"),
    ("recipient_uei", "recipient_uei"),
    ("awarding_sub_agency_name", "awarding_sub_agency_name"),
    ("type_of_contract_pricing", "type_of_contract_pricing"),
    ("extent_competed", "extent_competed"),
    ("primary_place_of_performance_zip_5", "primary_place_of_performance_zip_4"),
    ("contract_description", "transaction_description"),
    ("parent_award_agency_id", "parent_award_agency_id") ]

/-- `USE_COLS = list(COLUMN_MAP.values())`. -/
def USE_COLS : List String := COLUMN_MAP.map (·.2)

/-- `FY_FOLDERS`. -/
def FY_FOLDERS : List String :=
  [ "FY2017", "FY2018", "FY2019", "FY2020",
    "FY2021", "FY2022", "FY2023", "FY2024", "FY2025" ]

/-- `reverse_map = {v: k for k, v in COLUMN_MAP.items()}` applied to one
column name: rename a source column to its canonical name, leave unmapped
names unchanged (`df.rename` semantics). -/
def renameLookup (c : String) : String :=
  match COLUMN_MAP.find? (fun p => p.2 == c) with
  | some p => p.1
  | none => c

/-- `df.rename(columns=reverse_map)`. -/
def renameCols (df : Df) : Df :=
  { df with cols := df.cols.map renameLookup }

/-- `pd.read_csv(path, usecols=USE_COLS, dtype=str)`: fails when a requested
column is absent from the header; otherwise keeps exactly the requested
columns, in file-header order, every cell read as raw text (missing fields
as NA). -/
def readCsvUsecols (usecols : List String) (file : RawFile) : Except String Df :=
  if usecols.all (fun c => file.header.contains c) then
    let keep := file.header.enum.filter (fun p => usecols.contains p.2)
    Except.ok
      { cols := keep.map (·.2)
        rows := file.rows.map (fun r => keep.map (fun p => cellOfOpt (r.getD p.1 none))) }
  else Except.error "Usecols do not match columns"

/-- The per-partition cleaning body of `process_fy` after a successful read:
rename, coerce the two date columns and the amount column, clean the zip
column, and derive `fiscal_year` from the (already converted) action date. -/
def cleanDf (df : Df) : Df :=
  addColFrom
    (setCol
      (setCol
        (setCol
          (setCol (renameCols df) "action_date" toDatetimeCoerce)
          "period_of_performance_start_date" toDatetimeCoerce)
        "award_amount" toNumericCoerce)
      "primary_place_of_performance_zip_5" zipClean)
    "action_date" computeFiscalYearCell "fiscal_year"

/-- `process_fy` on the list of CSV files found in the partition directory:
no file → skip (`none`); otherwise read the first file (a missing required
column propagates as an error) and clean it. -/
def process_fy (files : List RawFile) : Except String (Option Df) :=
  match files with
  | [] => Except.ok none
  | f :: _ =>
    match readCsvUsecols USE_COLS f with
    | Except.ok df => Except.ok (some (cleanDf df))
    | Except.error e => Except.error e

/-- Project one row of a source frame onto a target column list by column
name (pandas `concat` alignment; a name absent from the source yields NA). -/
def projectRow (srcCols : List String) (row : List Cell) (tgtCols : List String) : List Cell :=
  tgtCols.map (fun c =>
    match srcCols.findIdx? (· == c) with
    | some i => row.getD i .null
    | none => .null)

/-- Column list of `pd.concat(frames)`: union of the frames' columns in
order of first appearance. -/
def concatCols (frames : List Df) : List String :=
  frames.foldl (fun acc f => acc ++ f.cols.filter (fun c => !(acc.contains c))) []

/-- `pd.concat(frames, ignore_index=True)` for a nonempty frame list: rows of
all frames in order, each aligned to the union column list. -/
def concatFrames (frames : List Df) : Df :=
  let cols := concatCols frames
  { cols := cols
    rows := (frames.map (fun f => f.rows.map (fun r => projectRow f.cols r cols))).flatten }

/-- The non-null `fiscal_year` values of a frame, one per row that has one
(the groupby key values; pandas groupby drops NaN keys). -/
def observedFys (df : Df) : List Int :=
  df.rows.filterMap (fun r =>
    match getCell df.cols r "fiscal_year" with
    | .int n => some n
    | _ => none)

/-- `combined.groupby("fiscal_year").size().sort_index()`: the distinct
observed fiscal years in ascending order, each with its row count. -/
def fyCountsOf (df : Df) : List (Int × Nat) :=
  let vals := observedFys df
  (vals.dedup.insertionSort (· ≤ ·)).map (fun y => (y, vals.count y))

/-- `expected = set(range(2017, 2026))`, as an ascending list. -/
def expectedFys : List Int := (List.range 9).map (fun k => (2017 : Int) + k)

/-- `missing = expected - actual`, reported in ascending (sorted) order. -/
def missingFys (df : Df) : List Int :=
  expectedFys.filter (fun y => !((observedFys df).contains y))

/-- Everything `main` produces after a successful run: the combined frame
(also the content of the exported parquet file), the printed total, the
per-fiscal-year counts, and the missing-years advisory. -/
structure MainOutput where
  combined : Df
  total : Nat
  counts : List (Int × Nat)
  missing : List Int
deriving Repr

/-- The accumulation loop of `main`: run `process_fy` on each partition in
order, keep the cleaned frames, skip the `none`s, propagate the first
error. -/
def collectFrames : List (List RawFile) → Except String (List Df)
  | [] => Except.ok []
  | p :: ps =>
    match process_fy p with
    | Except.error e => Except.error e
    | Except.ok od =>
      match collectFrames ps with
      | Except.error e => Except.error e
      | Except.ok rest =>
        Except.ok (match od with
          | some d => d :: rest
          | none => rest)

/-- `main`, parameterised by the filesystem content of each partition
directory (in partition order): accumulate, merge (`pd.concat` of an empty
list raises), and summarise.  An `Except.error` result is a fatal abort
before the export: no output file is written. -/
def runMain (partitions : List (List RawFile)) : Except String MainOutput :=
  match collectFrames partitions with
  | Except.error e => Except.error e
  | Except.ok [] => Except.error "No objects to concatenate"
  | Except.ok (f :: fs) =>
    let combined := concatFrames (f :: fs)
    Except.ok
      { combined := combined
        total := combined.rows.length
        counts := fyCountsOf combined
        missing := missingFys combined }

/-- The whole script: the partition directories are looked up for the nine
labels `FY2017` … `FY2025` in order. -/
def mainRun (fs : String → List RawFile) : Except String MainOutput :=
  runMain (FY_FOLDERS.map fs)

/-!  ## Generic helper lemmas: `findIdx?`, `getD`, `getCell`  -/

theorem findIdx?_beq_getElem {α} [BEq α] [LawfulBEq α] {c : α} :
    ∀ {l : List α} {i : Nat}, l.findIdx? (· == c) = some i → l[i]? = some c := by
  intro l
  induction l with
  | nil => intro i h; simp [List.findIdx?_nil] at h
  | cons a xs ih =>
    intro i h
    rw [List.findIdx?_cons] at h
    by_cases hac : (a == c) = true
    · simp [hac] at h
      subst h
      simp [eq_of_beq hac]
    · simp [hac, List.findIdx?_succ] at h
      obtain ⟨j, hj, rfl⟩ := h
      simpa using ih hj

theorem mem_findIdx?_exists {α} [BEq α] [LawfulBEq α] {c : α} {l : List α}
    (h : c ∈ l) : ∃ i, l.findIdx? (· == c) = some i := by
  have hs : (l.findIdx? (· == c)).isSome = l.any (· == c) := List.findIdx?_isSome
  have ha : l.any (· == c) = true := List.any_eq_true.2 ⟨c, h, by simp⟩
  rw [ha] at hs
  exact Option.isSome_iff_exists.1 hs

theorem findIdx?_congr {α} {p q : α → Bool} :
    ∀ (l : List α) (s : Nat), (∀ x ∈ l, p x = q x) →
      List.findIdx? p l s = List.findIdx? q l s := by
  intro l
  induction l with
  | nil => intro s _; rfl
  | cons a xs ih =>
    intro s hx
    rw [List.findIdx?_cons, List.findIdx?_cons, hx a (by simp)]
    by_cases hq : q a = true
    · simp [hq]
    · simp [hq, ih 0 (fun x hx' => hx x (by simp [hx']))]

theorem getD_set_self {r : List Cell} {i : Nat} (h : i < r.length) (x : Cell) :
    (r.set i x).getD i Cell.null = x := by
  rw [List.getD_eq_getElem?_getD, List.getElem?_set_self h]
  rfl

theorem getD_set_ne {r : List Cell} {i j : Nat} (h : i ≠ j) (x : Cell) :
    (r.set i x).getD j Cell.null = r.getD j Cell.null := by
  rw [List.getD_eq_getElem?_getD, List.getElem?_set_ne h, ← List.getD_eq_getElem?_getD]

theorem getD_append_left {r s : List Cell} {i : Nat} (h : i < r.length) :
    (r ++ s).getD i Cell.null = r.getD i Cell.null := by
  rw [List.getD_eq_getElem?_getD, List.getElem?_append_left h, ← List.getD_eq_getElem?_getD]

theorem getD_concat_self (r : List Cell) (x : Cell) :
    (r ++ [x]).getD r.length Cell.null = x := by
  rw [List.getD_eq_getElem?_getD, List.getElem?_concat_length]
  rfl

theorem getCell_of_findIdx {cols : List String} {c : String} {i : Nat}
    (h : cols.findIdx? (· == c) = some i) (r : List Cell) :
    getCell cols r c = r.getD i Cell.null := by
  simp [getCell, h]

/-- Indices found for two distinct names are distinct. -/
theorem findIdx?_ne_of_ne {cols : List String} {c c' : String} {i j : Nat}
    (hne : c ≠ c') (hi : cols.findIdx? (· == c) = some i)
    (hj : cols.findIdx? (· == c') = some j) : i ≠ j := by
  intro hij
  subst hij
  have h1 := findIdx?_beq_getElem hi
  have h2 := findIdx?_beq_getElem hj
  rw [h1] at h2
  exact hne (by injection h2)

theorem length_filterMap_eq_iff {α β} (f : α → Option β) :
    ∀ l : List α, (l.filterMap f).length = l.length ↔ ∀ x ∈ l, (f x).isSome := by
  intro l
  induction l with
  | nil => simp
  | cons a xs ih =>
    rw [List.filterMap_cons]
    cases hfa : f a with
    | none =>
      simp only [List.length_cons]
      constructor
      · intro h
        exfalso
        have := List.length_filterMap_le f xs
        omega
      · intro h
        have := h a (List.mem_cons_self a xs)
        rw [hfa] at this
        simp at this
    | some b =>
      simp only [List.length_cons]
      constructor
      · intro h x hx
        cases hx with
        | head => rw [hfa]; rfl
        | tail _ hx2 => exact (ih.1 (by omega)) x hx2
      · intro h
        have h2 : (xs.filterMap f).length = xs.length :=
          ih.2 (fun x hx => h x (List.mem_cons_of_mem a hx))
        omega

/-!  ## Inversion of a successful `read_csv`  -/

theorem readCsv_ok_inv {us : List String} {file : RawFile} {df : Df}
    (h : readCsvUsecols us file = Except.ok df) :
    (∀ c ∈ us, c ∈ file.header) ∧
    df.cols = (file.header.enum.filter (fun p => us.contains p.2)).map (·.2) ∧
    df.cols = file.header.filter (fun c => us.contains c) ∧
    df.rows = file.rows.map (fun r =>
      (file.header.enum.filter (fun p => us.contains p.2)).map
        (fun p => cellOfOpt (r.getD p.1 none))) := by
  unfold readCsvUsecols at h
  by_cases hall : us.all (fun c => file.header.contains c) = true
  · rw [if_pos hall] at h
    injection h with h
    subst h
    refine ⟨?_, rfl, ?_, rfl⟩
    · intro c hc
      have := (List.all_eq_true.1 hall) c hc
      simpa using this
    · show (file.header.enum.filter fun p => us.contains p.2).map (·.2) = _
      conv_rhs => rw [← List.enum_map_snd file.header]
      rw [List.filter_map]
      rfl
  · rw [if_neg hall] at h
    simp at h

theorem readCsv_mem_sup {us : List String} {file : RawFile} {df : Df}
    (h : readCsvUsecols us file = Except.ok df) : ∀ c ∈ us, c ∈ df.cols := by
  intro c hc
  obtain ⟨hhd, _, hcols, _⟩ := readCsv_ok_inv h
  rw [hcols]
  exact List.mem_filter.2 ⟨hhd c hc, by simpa using hc⟩

theorem readCsv_mem_sub {us : List String} {file : RawFile} {df : Df}
    (h : readCsvUsecols us file = Except.ok df) : ∀ c ∈ df.cols, c ∈ us := by
  intro c hc
  obtain ⟨_, _, hcols, _⟩ := readCsv_ok_inv h
  rw [hcols] at hc
  have := (List.mem_filter.1 hc).2
  simpa using this

theorem readCsv_rowsWf {us : List String} {file : RawFile} {df : Df}
    (h : readCsvUsecols us file = Except.ok df) :
    ∀ r ∈ df.rows, r.length = df.cols.length := by
  intro r hr
  obtain ⟨_, hcolsE, _, hrows⟩ := readCsv_ok_inv h
  rw [hrows] at hr
  obtain ⟨r0, _, rfl⟩ := List.mem_map.1 hr
  rw [hcolsE]
  simp

theorem readCsv_rows_length {us : List String} {file : RawFile} {df : Df}
    (h : readCsvUsecols us file = Except.ok df) :
    df.rows.length = file.rows.length := by
  obtain ⟨_, _, _, hrows⟩ := readCsv_ok_inv h
  rw [hrows, List.length_map]

theorem readCsv_cols_nodup {us : List String} {file : RawFile} {df : Df}
    (h : readCsvUsecols us file = Except.ok df) (hnd : file.header.Nodup) :
    df.cols.Nodup := by
  obtain ⟨_, _, hcols, _⟩ := readCsv_ok_inv h
  rw [hcols]
  exact hnd.filter _

/-- Cells coming out of `read_csv(dtype=str)` are raw text or NA. -/
theorem readCsv_cell_shape {us : List String} {file : RawFile} {df : Df}
    (h : readCsvUsecols us file = Except.ok df) :
    ∀ r ∈ df.rows, ∀ x ∈ r, x = Cell.null ∨ ∃ s, x = Cell.str s := by
  intro r hr x hx
  obtain ⟨_, _, _, hrows⟩ := readCsv_ok_inv h
  rw [hrows] at hr
  obtain ⟨r0, _, rfl⟩ := List.mem_map.1 hr
  obtain ⟨p, _, rfl⟩ := List.mem_map.1 hx
  cases r0.getD p.1 none with
  | none => exact Or.inl rfl
  | some s => exact Or.inr ⟨s, rfl⟩

/-!  ## Frame-level step lemmas  -/

theorem setCol_rows_length (df : Df) (c : String) (f : Cell → Cell) :
    (setCol df c f).rows.length = df.rows.length := by
  unfold setCol
  cases h : df.cols.findIdx? (· == c) <;> simp [h]

theorem addColFrom_rows_length (df : Df) (src : String) (f : Cell → Cell) (new : String) :
    (addColFrom df src f new).rows.length = df.rows.length := by
  unfold addColFrom
  cases h : df.cols.findIdx? (· == src) <;> simp [h]

theorem cleanDf_rows_length (df : Df) : (cleanDf df).rows.length = df.rows.length := by
  unfold cleanDf
  rw [addColFrom_rows_length, setCol_rows_length, setCol_rows_length,
    setCol_rows_length, setCol_rows_length]
  rfl

theorem setCol_of_some {df : Df} {c : String} {f : Cell → Cell} {j : Nat}
    (h : df.cols.findIdx? (· == c) = some j) :
    setCol df c f =
      { cols := df.cols
        rows := df.rows.map (fun r => r.set j (f (r.getD j Cell.null))) } := by
  unfold setCol
  rw [h]

theorem addColFrom_of_some {df : Df} {src new : String} {f : Cell → Cell} {j : Nat}
    (h : df.cols.findIdx? (· == src) = some j) :
    addColFrom df src f new =
      { cols := df.cols ++ [new]
        rows := df.rows.map (fun r => r ++ [f (r.getD j Cell.null)]) } := by
  unfold addColFrom
  rw [h]

/-- Tracking one `setCol` step: the written column gets `f` of its old
value, every other column keeps its value. -/
theorem setCol_track {df : Df} {c : String} {f : Cell → Cell} {j : Nat}
    (hidx : df.cols.findIdx? (· == c) = some j) (hj : j < df.cols.length) :
    (setCol df c f).cols = df.cols ∧
    ∀ (i : Nat) (r : List Cell), df.rows[i]? = some r → r.length = df.cols.length →
      ∃ r', (setCol df c f).rows[i]? = some r' ∧ r'.length = df.cols.length ∧
        getCell df.cols r' c = f (getCell df.cols r c) ∧
        (∀ c', c' ≠ c → getCell df.cols r' c' = getCell df.cols r c') := by
  rw [setCol_of_some hidx]
  refine ⟨rfl, ?_⟩
  intro i r hr hrlen
  refine ⟨r.set j (f (r.getD j Cell.null)), ?_, ?_, ?_, ?_⟩
  · simp [List.getElem?_map, hr]
  · simp [hrlen]
  · rw [getCell_of_findIdx hidx, getCell_of_findIdx hidx,
      getD_set_self (by omega : j < r.length)]
  · intro c' hne
    unfold getCell
    cases h' : df.cols.findIdx? (· == c') with
    | none => rfl
    | some j' =>
      have hjj : j' ≠ j := findIdx?_ne_of_ne hne h' hidx
      exact getD_set_ne (fun hh => hjj hh.symm) _

/-- Tracking the `fiscal_year` append: the new column gets `f` of the source
column's value, every existing column keeps its value. -/
theorem addCol_track {df : Df} {src new : String} {f : Cell → Cell} {j : Nat}
    (hidx : df.cols.findIdx? (· == src) = some j)
    (hnew : df.cols.findIdx? (· == new) = none) :
    (addColFrom df src f new).cols = df.cols ++ [new] ∧
    ∀ (i : Nat) (r : List Cell), df.rows[i]? = some r → r.length = df.cols.length →
      ∃ r', (addColFrom df src f new).rows[i]? = some r' ∧
        getCell (df.cols ++ [new]) r' new = f (getCell df.cols r src) ∧
        (∀ c', c' ∈ df.cols → getCell (df.cols ++ [new]) r' c' = getCell df.cols r c') := by
  rw [addColFrom_of_some hidx]
  refine ⟨rfl, ?_⟩
  intro i r hr hrlen
  refine ⟨r ++ [f (r.getD j Cell.null)], ?_, ?_, ?_⟩
  · simp [List.getElem?_map, hr]
  · have hfi : (df.cols ++ [new]).findIdx? (· == new) = some df.cols.length := by
      rw [List.findIdx?_append, hnew]
      simp [List.findIdx?_cons]
    rw [getCell_of_findIdx hfi, getCell_of_findIdx hidx, ← hrlen, getD_concat_self]
  · intro c' hc'
    obtain ⟨j', hj'⟩ := mem_findIdx?_exists hc'
    have hlt : j' < df.cols.length := by
      obtain ⟨hlt, _⟩ := List.getElem?_eq_some.1 (findIdx?_beq_getElem hj')
      exact hlt
    have hfi : (df.cols ++ [new]).findIdx? (· == c') = some j' := by
      rw [List.findIdx?_append, hj']
      rfl
    rw [getCell_of_findIdx hfi, getCell_of_findIdx hj',
      getD_append_left (by omega : j' < r.length)]

/-!  ## The rename map, pointwise  -/

theorem renamePair_aa :
    ∀ x ∈ USE_COLS, (renameLookup x == "award_amount") = (x == "federal_action_obligation") := by
  decide

theorem renamePair_ad :
    ∀ x ∈ USE_COLS, (renameLookup x == "action_date") = (x == "action_date") := by
  decide

theorem renamePair_pop :
    ∀ x ∈ USE_COLS, (renameLookup x == "period_of_performance_start_date") =
      (x == "period_of_performance_start_date") := by
  decide

theorem renamePair_zip :
    ∀ x ∈ USE_COLS, (renameLookup x == "primary_place_of_performance_zip_5") =
      (x == "primary_place_of_performance_zip_4") := by
  decide

theorem renameLookup_no_fy : ∀ x ∈ USE_COLS, (renameLookup x == "fiscal_year") = false := by
  decide

/-- Looking up a canonical name in the renamed columns is looking up its
source name in the original columns. -/
theorem renamed_findIdx {df : Df} (hsub : ∀ c ∈ df.cols, c ∈ USE_COLS)
    {canon src : String}
    (hpair : ∀ x ∈ USE_COLS, (renameLookup x == canon) = (x == src)) :
    (df.cols.map renameLookup).findIdx? (· == canon) = df.cols.findIdx? (· == src) := by
  rw [List.findIdx?_map]
  exact findIdx?_congr df.cols 0 (fun x hx => hpair x (hsub x hx))

theorem getCell_renamed {df : Df} (hsub : ∀ c ∈ df.cols, c ∈ USE_COLS)
    {canon src : String}
    (hpair : ∀ x ∈ USE_COLS, (renameLookup x == canon) = (x == src)) (r : List Cell) :
    getCell (df.cols.map renameLookup) r canon = getCell df.cols r src := by
  unfold getCell
  rw [renamed_findIdx hsub hpair]

/-- Central characterization of `process_fy`'s cleaning body: the columns
after cleaning, and the value of every coerced cell in terms of the raw cell
of its source column. -/
theorem cleanDf_cells {df : Df}
    (hsup : ∀ c ∈ USE_COLS, c ∈ df.cols)
    (hsub : ∀ c ∈ df.cols, c ∈ USE_COLS)
    (hwf : ∀ r ∈ df.rows, r.length = df.cols.length) :
    (cleanDf df).cols = df.cols.map renameLookup ++ ["fiscal_year"] ∧
    ∀ (i : Nat) (r : List Cell), df.rows[i]? = some r →
      ∃ r', (cleanDf df).rows[i]? = some r' ∧
        getCell (cleanDf df).cols r' "action_date"
          = toDatetimeCoerce (getCell df.cols r "action_date") ∧
        getCell (cleanDf df).cols r' "period_of_performance_start_date"
          = toDatetimeCoerce (getCell df.cols r "period_of_performance_start_date") ∧
        getCell (cleanDf df).cols r' "award_amount"
          = toNumericCoerce (getCell df.cols r "federal_action_obligation") ∧
        getCell (cleanDf df).cols r' "primary_place_of_performance_zip_5"
          = zipClean (getCell df.cols r "primary_place_of_performance_zip_4") ∧
        getCell (cleanDf df).cols r' "fiscal_year"
          = computeFiscalYearCell (toDatetimeCoerce (getCell df.cols r "action_date")) := by
  obtain ⟨iad, hiad⟩ := mem_findIdx?_exists (hsup "action_date" (by decide))
  obtain ⟨ipop, hipop⟩ :=
    mem_findIdx?_exists (hsup "period_of_performance_start_date" (by decide))
  obtain ⟨iaa, hiaa⟩ := mem_findIdx?_exists (hsup "federal_action_obligation" (by decide))
  obtain ⟨izip, hizip⟩ :=
    mem_findIdx?_exists (hsup "primary_place_of_performance_zip_4" (by decide))
  obtain ⟨hlt_ad, -⟩ := List.getElem?_eq_some.1 (findIdx?_beq_getElem hiad)
  obtain ⟨hlt_pop, -⟩ := List.getElem?_eq_some.1 (findIdx?_beq_getElem hipop)
  obtain ⟨hlt_aa, -⟩ := List.getElem?_eq_some.1 (findIdx?_beq_getElem hiaa)
  obtain ⟨hlt_zip, -⟩ := List.getElem?_eq_some.1 (findIdx?_beq_getElem hizip)
  set C := df.cols.map renameLookup with hCdef
  have hClen : C.length = df.cols.length := by rw [hCdef]; exact List.length_map _ _
  have hfad : C.findIdx? (· == "action_date") = some iad := by
    rw [hCdef, renamed_findIdx hsub renamePair_ad]; exact hiad
  have hfpop : C.findIdx? (· == "period_of_performance_start_date") = some ipop := by
    rw [hCdef, renamed_findIdx hsub renamePair_pop]; exact hipop
  have hfaa : C.findIdx? (· == "award_amount") = some iaa := by
    rw [hCdef, renamed_findIdx hsub renamePair_aa]; exact hiaa
  have hfzip : C.findIdx? (· == "primary_place_of_performance_zip_5") = some izip := by
    rw [hCdef, renamed_findIdx hsub renamePair_zip]; exact hizip
  have hffy : C.findIdx? (· == "fiscal_year") = none := by
    rw [hCdef]
    apply List.findIdx?_eq_none_iff.2
    intro x hx
    obtain ⟨y, hy, rfl⟩ := List.mem_map.1 hx
    exact renameLookup_no_fy y (hsub y hy)
  have hmem_ad : "action_date" ∈ C := List.getElem?_mem (findIdx?_beq_getElem hfad)
  have hmem_pop : "period_of_performance_start_date" ∈ C :=
    List.getElem?_mem (findIdx?_beq_getElem hfpop)
  have hmem_aa : "award_amount" ∈ C := List.getElem?_mem (findIdx?_beq_getElem hfaa)
  have hmem_zip : "primary_place_of_performance_zip_5" ∈ C :=
    List.getElem?_mem (findIdx?_beq_getElem hfzip)
  have hren_ad : ∀ rr, getCell C rr "action_date" = getCell df.cols rr "action_date" :=
    fun rr => by rw [hCdef]; exact getCell_renamed hsub renamePair_ad rr
  have hren_pop : ∀ rr, getCell C rr "period_of_performance_start_date"
      = getCell df.cols rr "period_of_performance_start_date" :=
    fun rr => by rw [hCdef]; exact getCell_renamed hsub renamePair_pop rr
  have hren_aa : ∀ rr, getCell C rr "award_amount"
      = getCell df.cols rr "federal_action_obligation" :=
    fun rr => by rw [hCdef]; exact getCell_renamed hsub renamePair_aa rr
  have hren_zip : ∀ rr, getCell C rr "primary_place_of_performance_zip_5"
      = getCell df.cols rr "primary_place_of_performance_zip_4" :=
    fun rr => by rw [hCdef]; exact getCell_renamed hsub renamePair_zip rr
  have hc1 : (Df.mk C df.rows).cols = C := rfl
  have Ht2 := @setCol_track (Df.mk C df.rows) "action_date" toDatetimeCoerce iad
    hfad (show iad < C.length by omega)
  have hc2 : (setCol (Df.mk C df.rows) "action_date" toDatetimeCoerce).cols = C := Ht2.1
  have Ht3 := @setCol_track
    (setCol (Df.mk C df.rows) "action_date" toDatetimeCoerce)
    "period_of_performance_start_date" toDatetimeCoerce ipop
    (show _ = some ipop by rw [hc2]; exact hfpop)
    (show ipop < _ by rw [hc2]; omega)
  have hc3 : (setCol (setCol (Df.mk C df.rows) "action_date" toDatetimeCoerce)
      "period_of_performance_start_date" toDatetimeCoerce).cols = C := Ht3.1.trans hc2
  have Ht4 := @setCol_track
    (setCol (setCol (Df.mk C df.rows) "action_date" toDatetimeCoerce)
      "period_of_performance_start_date" toDatetimeCoerce)
    "award_amount" toNumericCoerce iaa
    (show _ = some iaa by rw [hc3]; exact hfaa)
    (show iaa < _ by rw [hc3]; omega)
  have hc4 : (setCol (setCol (setCol (Df.mk C df.rows) "action_date" toDatetimeCoerce)
      "period_of_performance_start_date" toDatetimeCoerce)
      "award_amount" toNumericCoerce).cols = C := Ht4.1.trans hc3
  have Ht5 := @setCol_track
    (setCol (setCol (setCol (Df.mk C df.rows) "action_date" toDatetimeCoerce)
      "period_of_performance_start_date" toDatetimeCoerce)
      "award_amount" toNumericCoerce)
    "primary_place_of_performance_zip_5" zipClean izip
    (show _ = some izip by rw [hc4]; exact hfzip)
    (show izip < _ by rw [hc4]; omega)
  have hc5 : (setCol (setCol (setCol (setCol (Df.mk C df.rows) "action_date" toDatetimeCoerce)
      "period_of_performance_start_date" toDatetimeCoerce)
      "award_amount" toNumericCoerce)
      "primary_place_of_performance_zip_5" zipClean).cols = C := Ht5.1.trans hc4
  have Ht6 := @addCol_track
    (setCol (setCol (setCol (setCol (Df.mk C df.rows) "action_date" toDatetimeCoerce)
      "period_of_performance_start_date" toDatetimeCoerce)
      "award_amount" toNumericCoerce)
      "primary_place_of_performance_zip_5" zipClean)
    "action_date" "fiscal_year" computeFiscalYearCell iad
    (show _ = some iad by rw [hc5]; exact hfad)
    (show _ = none by rw [hc5]; exact hffy)
  have hc6 : (cleanDf df).cols = C ++ ["fiscal_year"] := by
    have h := Ht6.1
    rw [hc5] at h
    exact h
  refine ⟨hc6, ?_⟩
  intro i r hr
  have hrlen : r.length = df.cols.length := hwf r (List.getElem?_mem hr)
  obtain ⟨r2, hR2, hL2, hv2, ho2⟩ := Ht2.2 i r hr (show r.length = C.length by omega)
  rw [hc1] at hL2 hv2 ho2
  obtain ⟨r3, hR3, hL3, hv3, ho3⟩ := Ht3.2 i r2 hR2 (by rw [hc2]; exact hL2)
  rw [hc2] at hL3 hv3 ho3
  obtain ⟨r4, hR4, hL4, hv4, ho4⟩ := Ht4.2 i r3 hR3 (by rw [hc3]; exact hL3)
  rw [hc3] at hL4 hv4 ho4
  obtain ⟨r5, hR5, hL5, hv5, ho5⟩ := Ht5.2 i r4 hR4 (by rw [hc4]; exact hL4)
  rw [hc4] at hL5 hv5 ho5
  obtain ⟨r6, hR6, hv6, ho6⟩ := Ht6.2 i r5 hR5 (by rw [hc5]; exact hL5)
  rw [hc5] at hv6 ho6
  refine ⟨r6, hR6, ?_, ?_, ?_, ?_, ?_⟩
  · rw [hc6, ho6 _ hmem_ad, ho5 _ (by decide), ho4 _ (by decide), ho3 _ (by decide),
      hv2, hren_ad r]
  · rw [hc6, ho6 _ hmem_pop, ho5 _ (by decide), ho4 _ (by decide), hv3,
      ho2 _ (by decide), hren_pop r]
  · rw [hc6, ho6 _ hmem_aa, ho5 _ (by decide), hv4, ho3 _ (by decide),
      ho2 _ (by decide), hren_aa r]
  · rw [hc6, ho6 _ hmem_zip, hv5, ho4 _ (by decide), ho3 _ (by decide),
      ho2 _ (by decide), hren_zip r]
  · rw [hc6, hv6, ho5 _ (by decide), ho4 _ (by decide), ho3 _ (by decide),
      hv2, hren_ad r]

/-!  ## Run-level lemmas  -/

theorem process_fy_nil : process_fy ([] : List RawFile) = Except.ok none := rfl

theorem readCsv_error_of_missing {file : RawFile}
    (h : ∃ c ∈ USE_COLS, ¬ c ∈ file.header) :
    readCsvUsecols USE_COLS file = Except.error "Usecols do not match columns" := by
  obtain ⟨c, hc, hnc⟩ := h
  unfold readCsvUsecols
  rw [if_neg]
  intro hall
  exact hnc (by simpa using (List.all_eq_true.1 hall) c hc)

theorem collectFrames_error_of_bad :
    ∀ {ps : List (List RawFile)},
      (∃ p ∈ ps, ∃ (f : RawFile) (rest : List RawFile), p = f :: rest ∧
        ∃ c ∈ USE_COLS, ¬ c ∈ f.header) →
      ∃ e, collectFrames ps = Except.error e := by
  intro ps
  induction ps with
  | nil => rintro ⟨p, hp, -⟩; simp at hp
  | cons p ps ih =>
    rintro ⟨q, hq, f, rest, hqf, hbad⟩
    rcases List.mem_cons.1 hq with rfl | hq'
    · refine ⟨"Usecols do not match columns", ?_⟩
      have hpf : process_fy q = Except.error "Usecols do not match columns" := by
        rw [hqf]
        simp only [process_fy]
        rw [readCsv_error_of_missing hbad]
      unfold collectFrames
      rw [hpf]
    · cases hpf : process_fy p with
      | error e => exact ⟨e, by unfold collectFrames; rw [hpf]⟩
      | ok od =>
        obtain ⟨e, he⟩ := ih ⟨q, hq', f, rest, hqf, hbad⟩
        refine ⟨e, ?_⟩
        unfold collectFrames
        rw [hpf, he]

theorem collectFrames_all_empty :
    ∀ {ps : List (List RawFile)}, (∀ p ∈ ps, p = ([] : List RawFile)) →
      collectFrames ps = Except.ok [] := by
  intro ps
  induction ps with
  | nil => intro _; rfl
  | cons p ps ih =>
    intro h
    have hp : p = [] := h p (List.mem_cons_self p ps)
    subst hp
    unfold collectFrames
    rw [show process_fy ([] : List RawFile) = Except.ok none from rfl,
      ih (fun q hq => h q (List.mem_cons_of_mem _ hq))]

theorem runMain_error_of_collect_error {ps : List (List RawFile)} {e : String}
    (h : collectFrames ps = Except.error e) : runMain ps = Except.error e := by
  unfold runMain
  rw [h]

theorem runMain_error_of_collect_nil {ps : List (List RawFile)}
    (h : collectFrames ps = Except.ok []) :
    runMain ps = Except.error "No objects to concatenate" := by
  unfold runMain
  rw [h]

theorem collectFrames_skip_empty :
    ∀ (pre post : List (List RawFile)),
      collectFrames (pre ++ ([] : List RawFile) :: post) = collectFrames (pre ++ post) := by
  intro pre
  induction pre with
  | nil =>
    intro post
    have h1 : collectFrames ([] :: post) =
        match collectFrames post with
        | Except.error e => Except.error e
        | Except.ok rest => Except.ok rest := rfl
    show collectFrames ([] :: post) = collectFrames post
    rw [h1]
    cases h : collectFrames post <;> rfl
  | cons p pre ih =>
    intro post
    have h1 : ∀ (l : List (List RawFile)), collectFrames (p :: l) =
        match process_fy p with
        | Except.error e => Except.error e
        | Except.ok od =>
          match collectFrames l with
          | Except.error e => Except.error e
          | Except.ok rest =>
            Except.ok (match od with | some d => d :: rest | none => rest) :=
      fun l => rfl
    show collectFrames (p :: (pre ++ [] :: post)) = collectFrames (p :: (pre ++ post))
    rw [h1, h1, ih post]

theorem runMain_congr {a b : List (List RawFile)}
    (h : collectFrames a = collectFrames b) : runMain a = runMain b := by
  unfold runMain
  rw [h]

theorem runMain_ok_inv {partitions : List (List RawFile)} {out : MainOutput}
    (h : runMain partitions = Except.ok out) :
    ∃ f fs, collectFrames partitions = Except.ok (f :: fs) ∧
      out.combined = concatFrames (f :: fs) ∧
      out.total = out.combined.rows.length ∧
      out.counts = fyCountsOf out.combined ∧
      out.missing = missingFys out.combined := by
  unfold runMain at h
  cases hc : collectFrames partitions with
  | error e => rw [hc] at h; simp at h
  | ok frames =>
    rw [hc] at h
    cases frames with
    | nil => simp at h
    | cons f fs =>
      injection h with h
      subst h
      exact ⟨f, fs, rfl, rfl, rfl, rfl, rfl⟩

theorem collectFrames_ok_mem :
    ∀ {ps : List (List RawFile)} {frames : List Df},
      collectFrames ps = Except.ok frames →
      ∀ d ∈ frames, ∃ (file : RawFile) (df : Df),
        readCsvUsecols USE_COLS file = Except.ok df ∧ d = cleanDf df := by
  intro ps
  induction ps with
  | nil =>
    intro frames h d hd
    injection h with h
    subst h
    simp at hd
  | cons p ps ih =>
    intro frames h d hd
    unfold collectFrames at h
    cases hpf : process_fy p with
    | error e => rw [hpf] at h; simp at h
    | ok od =>
      rw [hpf] at h
      cases hcf : collectFrames ps with
      | error e => rw [hcf] at h; simp at h
      | ok rest =>
        rw [hcf] at h
        injection h with h
        subst h
        cases od with
        | none => exact ih hcf d hd
        | some d0 =>
          rcases List.mem_cons.1 hd with rfl | hd'
          · cases p with
            | nil => simp [process_fy] at hpf
            | cons f fl =>
              simp only [process_fy] at hpf
              cases hread : readCsvUsecols USE_COLS f with
              | error e => rw [hread] at hpf; simp at hpf
              | ok df =>
                rw [hread] at hpf
                injection hpf with hpf
                injection hpf with hpf
                exact ⟨f, df, hread, hpf.symm⟩
          · exact ih hcf d hd'

/-!  ## Concatenation lemmas  -/

theorem concatFrames_cols (frames : List Df) :
    (concatFrames frames).cols = concatCols frames := rfl

theorem concatFrames_rows (frames : List Df) :
    (concatFrames frames).rows =
      (frames.map (fun f => f.rows.map (fun r => projectRow f.cols r (concatCols frames)))).flatten :=
  rfl

theorem concatFrames_length (frames : List Df) :
    (concatFrames frames).rows.length = (frames.map (fun f => f.rows.length)).sum := by
  have key : ∀ (L : List Df) (cols : List String),
      ((L.map (fun f => f.rows.map (fun r => projectRow f.cols r cols))).flatten).length
        = (L.map (fun f => f.rows.length)).sum := by
    intro L cols
    induction L with
    | nil => rfl
    | cons f fs ih => simp [ih]
  exact key frames (concatCols frames)

theorem mem_foldl_concat_acc (c : String) :
    ∀ (frames : List Df) (acc : List String), c ∈ acc →
      c ∈ frames.foldl (fun acc f => acc ++ f.cols.filter (fun x => !(acc.contains x))) acc := by
  intro frames
  induction frames with
  | nil => intro acc h; exact h
  | cons f fs ih =>
    intro acc h
    rw [List.foldl_cons]
    exact ih _ (List.mem_append.2 (Or.inl h))

theorem mem_concatCols_of_mem {c : String} :
    ∀ {frames : List Df} (f : Df), f ∈ frames → c ∈ f.cols → c ∈ concatCols frames := by
  have key : ∀ (frames : List Df) (acc : List String) (f : Df), f ∈ frames → c ∈ f.cols →
      c ∈ frames.foldl (fun acc g => acc ++ g.cols.filter (fun x => !(acc.contains x))) acc := by
    intro frames
    induction frames with
    | nil => intro acc f hf; simp at hf
    | cons g fs ih =>
      intro acc f hf hc
      rw [List.foldl_cons]
      rcases List.mem_cons.1 hf with rfl | hf'
      · apply mem_foldl_concat_acc
        by_cases hacc : c ∈ acc
        · exact List.mem_append.2 (Or.inl hacc)
        · refine List.mem_append.2 (Or.inr (List.mem_filter.2 ⟨hc, ?_⟩))
          simpa using hacc
      · exact ih _ f hf' hc
  intro frames f hf hc
  exact key frames [] f hf hc

theorem getCell_projectRow {srcCols : List String} {r : List Cell} {tgtCols : List String}
    {c : String} (hc : c ∈ tgtCols) :
    getCell tgtCols (projectRow srcCols r tgtCols) c = getCell srcCols r c := by
  obtain ⟨j, hj⟩ := mem_findIdx?_exists hc
  have hjc := findIdx?_beq_getElem hj
  rw [getCell_of_findIdx hj]
  unfold projectRow
  rw [List.getD_eq_getElem?_getD, List.getElem?_map, hjc]
  rfl

/-!  ## The action-date/fiscal-year row invariant  -/

theorem toDatetimeCoerce_shape (x : Cell) :
    toDatetimeCoerce x = Cell.null ∨ ∃ d, toDatetimeCoerce x = Cell.date d := by
  cases x with
  | str s =>
    cases hp : parseDate s with
    | none => exact Or.inl (by simp [toDatetimeCoerce, hp])
    | some d => exact Or.inr ⟨d, by simp [toDatetimeCoerce, hp]⟩
  | null => exact Or.inl rfl
  | date d => exact Or.inr ⟨d, rfl⟩
  | num q => exact Or.inl rfl
  | int n => exact Or.inl rfl

theorem cleanDf_frame_inv {file : RawFile} {df : Df}
    (hread : readCsvUsecols USE_COLS file = Except.ok df) :
    "action_date" ∈ (cleanDf df).cols ∧ "fiscal_year" ∈ (cleanDf df).cols ∧
    ∀ r' ∈ (cleanDf df).rows,
      (getCell (cleanDf df).cols r' "action_date" = Cell.null ∨
        ∃ d, getCell (cleanDf df).cols r' "action_date" = Cell.date d) ∧
      getCell (cleanDf df).cols r' "fiscal_year"
        = computeFiscalYearCell (getCell (cleanDf df).cols r' "action_date") := by
  obtain ⟨hcols, hcells⟩ :=
    cleanDf_cells (readCsv_mem_sup hread) (readCsv_mem_sub hread) (readCsv_rowsWf hread)
  refine ⟨?_, ?_, ?_⟩
  · rw [hcols]
    refine List.mem_append.2 (Or.inl (List.mem_map.2
      ⟨"action_date", readCsv_mem_sup hread _ (by decide), by decide⟩))
  · rw [hcols]
    exact List.mem_append.2 (Or.inr (by simp))
  · intro r' hr'
    obtain ⟨i, hi⟩ := List.getElem?_of_mem hr'
    have hlt : i < df.rows.length := by
      have h1 := (List.getElem?_eq_some.1 hi).1
      have h2 := cleanDf_rows_length df
      omega
    obtain ⟨r'', hR, had, -, -, -, hfy⟩ := hcells i _ (List.getElem?_eq_getElem hlt)
    have heq : r' = r'' := by
      rw [hi] at hR
      injection hR
    subst heq
    constructor
    · rw [had]
      exact toDatetimeCoerce_shape _
    · rw [hfy, had]

/-!  ## Summary lemmas  -/

theorem fyCounts_keys (d : Df) :
    (fyCountsOf d).map (·.1) = (observedFys d).dedup.insertionSort (· ≤ ·) := by
  unfold fyCountsOf
  rw [List.map_map]
  show List.map (fun y => y) ((observedFys d).dedup.insertionSort (· ≤ ·)) = _
  exact List.map_id' _

theorem fyCounts_sum (d : Df) :
    ((fyCountsOf d).map (·.2)).sum = (observedFys d).length := by
  unfold fyCountsOf
  rw [List.map_map]
  have hperm :
      (((observedFys d).dedup.insertionSort (· ≤ ·)).map
        (fun y => (observedFys d).count y)).Perm
      ((observedFys d).dedup.map (fun y => (observedFys d).count y)) :=
    (List.perm_insertionSort _ _).map _
  exact hperm.sum_eq.trans (List.sum_map_count_dedup_eq_length _)

theorem missingFys_iff (d : Df) :
    ∀ y : Int, y ∈ missingFys d ↔ (y ∈ expectedFys ∧ y ∉ observedFys d) := by
  intro y
  unfold missingFys
  rw [List.mem_filter]
  simp

/-- Every row of the merged frame of a successful run has a null-or-date
`action_date` cell, and its `fiscal_year` cell is derived from it. -/
theorem runMain_combined_inv {partitions : List (List RawFile)} {out : MainOutput}
    (h : runMain partitions = Except.ok out) :
    "action_date" ∈ out.combined.cols ∧ "fiscal_year" ∈ out.combined.cols ∧
    ∀ r ∈ out.combined.rows,
      (getCell out.combined.cols r "action_date" = Cell.null ∨
        ∃ d, getCell out.combined.cols r "action_date" = Cell.date d) ∧
      getCell out.combined.cols r "fiscal_year"
        = computeFiscalYearCell (getCell out.combined.cols r "action_date") := by
  obtain ⟨f, fs, hcf, hcomb, -, -, -⟩ := runMain_ok_inv h
  have hframe : ∀ d ∈ (f :: fs), "action_date" ∈ d.cols ∧ "fiscal_year" ∈ d.cols ∧
      ∀ r' ∈ d.rows,
        (getCell d.cols r' "action_date" = Cell.null ∨
          ∃ dd, getCell d.cols r' "action_date" = Cell.date dd) ∧
        getCell d.cols r' "fiscal_year"
          = computeFiscalYearCell (getCell d.cols r' "action_date") := by
    intro d hd
    obtain ⟨file, df, hread, rfl⟩ := collectFrames_ok_mem hcf d hd
    exact cleanDf_frame_inv hread
  have hmem_ad : "action_date" ∈ concatCols (f :: fs) :=
    mem_concatCols_of_mem f (List.mem_cons_self f fs)
      (hframe f (List.mem_cons_self f fs)).1
  have hmem_fy : "fiscal_year" ∈ concatCols (f :: fs) :=
    mem_concatCols_of_mem f (List.mem_cons_self f fs)
      (hframe f (List.mem_cons_self f fs)).2.1
  rw [hcomb]
  refine ⟨hmem_ad, hmem_fy, ?_⟩
  intro r hr
  rw [concatFrames_rows] at hr
  obtain ⟨rowsList, hrows, hrmem⟩ := List.mem_flatten.1 hr
  obtain ⟨fr, hfr, rfl⟩ := List.mem_map.1 hrows
  obtain ⟨r0, hr0, rfl⟩ := List.mem_map.1 hrmem
  have hfi := hframe fr hfr
  have h1 := @getCell_projectRow fr.cols r0 (concatCols (f :: fs)) "action_date" hmem_ad
  have h2 := @getCell_projectRow fr.cols r0 (concatCols (f :: fs)) "fiscal_year" hmem_fy
  constructor
  · rw [show (concatFrames (f :: fs)).cols = concatCols (f :: fs) from rfl, h1]
    exact (hfi.2.2 r0 hr0).1
  · rw [show (concatFrames (f :: fs)).cols = concatCols (f :: fs) from rfl, h1, h2,
      (hfi.2.2 r0 hr0).2]

/-!  ## Concrete fixtures  -/

/-- One raw CSV row in the column order of `USE_COLS` (amount, action date,
period-of-performance start date, zip; all passthrough fields missing). -/
def mkRawRow (amt date pop zip : Option String) : List (Option String) :=
  [amt, date, pop, none, none, none, none, none, none, zip, none, none]

def sampleFile : RawFile :=
  { header := USE_COLS
    rows := [ mkRawRow (some "100.5") (some "2024-10-01") (some "2025-09-30") (some "123456789"),
              mkRawRow (some "1,234.50") (some "garbage") none none ] }

def sampleDf : Df := ((readCsvUsecols USE_COLS sampleFile).toOption).getD (Df.mk [] [])

def zipFile : RawFile :=
  { header := USE_COLS
    rows := [mkRawRow none none none (some "1234")] }

def zipDf : Df := ((readCsvUsecols USE_COLS zipFile).toOption).getD (Df.mk [] [])

/-- A partition file missing eleven of the twelve required columns. -/
def badFile : RawFile := { header := ["action_date"], rows := [] }

def sampleOut : MainOutput :=
  ((runMain [[sampleFile]]).toOption).getD (MainOutput.mk (Df.mk [] []) 0 [] [])

/-- A filesystem with data only in the FY2017 partition directory. -/
def sampleFs : String → List RawFile :=
  fun label => if label == "FY2017" then [sampleFile] else []

def sampleMainOut : MainOutput :=
  ((mainRun sampleFs).toOption).getD (MainOutput.mk (Df.mk [] []) 0 [] [])

/-- A cell read from a named column of a raw-text row is NA or a string. -/
theorem getCell_shape {cols : List String} {r : List Cell} {c : String}
    (hshape : ∀ x ∈ r, x = Cell.null ∨ ∃ s, x = Cell.str s) :
    getCell cols r c = Cell.null ∨ ∃ s, getCell cols r c = Cell.str s := by
  unfold getCell
  cases hf : cols.findIdx? (· == c) with
  | none => exact Or.inl rfl
  | some i =>
    show r.getD i Cell.null = Cell.null ∨ ∃ s, r.getD i Cell.null = Cell.str s
    rw [List.getD_eq_getElem?_getD]
    cases hg : r[i]? with
    | none => exact Or.inl rfl
    | some x =>
      have := hshape x (List.getElem?_mem hg)
      simpa using this

/-!  ## Claims  -/

/-- Claim C1: for every row of a successfully read partition file, the
derived `fiscal_year` cell equals the calendar year plus one when the month
is at least 10 and the calendar year otherwise whenever the (cleaned)
`action_date` cell holds a valid date, and is null whenever the `action_date`
cell is null (missing or unparsable source value). -/
theorem c1_fiscal_year_rule {file : RawFile} {df : Df}
    (hread : readCsvUsecols USE_COLS file = Except.ok df) :
    ∀ (i : Nat) (r r' : List Cell),
      df.rows[i]? = some r → (cleanDf df).rows[i]? = some r' →
      (∀ d : Date, getCell (cleanDf df).cols r' "action_date" = Cell.date d →
        getCell (cleanDf df).cols r' "fiscal_year"
          = Cell.int ((d.year : Int) + if 10 ≤ d.month then 1 else 0)) ∧
      (getCell (cleanDf df).cols r' "action_date" = Cell.null →
        getCell (cleanDf df).cols r' "fiscal_year" = Cell.null) := by
  obtain ⟨-, hcells⟩ :=
    cleanDf_cells (readCsv_mem_sup hread) (readCsv_mem_sub hread) (readCsv_rowsWf hread)
  intro i r r' hr hr'
  obtain ⟨r'', hR, had, -, -, -, hfy⟩ := hcells i r hr
  have heq : r' = r'' := by rw [hr'] at hR; injection hR
  subst heq
  rw [← had] at hfy
  constructor
  · intro d hd
    rw [hfy, hd]
    rfl
  · intro hd
    rw [hfy, hd]
    rfl

/-- Witness for C1: on the sample partition, `2024-10-01` yields fiscal year
2025 and the unparsable `garbage` date yields a null fiscal year. -/
theorem c1_witness :
    readCsvUsecols USE_COLS sampleFile = Except.ok sampleDf ∧
    getCell (cleanDf sampleDf).cols ((cleanDf sampleDf).rows.getD 0 []) "fiscal_year"
      = Cell.int 2025 ∧
    getCell (cleanDf sampleDf).cols ((cleanDf sampleDf).rows.getD 1 []) "fiscal_year"
      = Cell.null := by
  refine ⟨rfl, ?_, ?_⟩
  · have h := (@c1_fiscal_year_rule sampleFile sampleDf rfl 0
      (sampleDf.rows.getD 0 []) ((cleanDf sampleDf).rows.getD 0 []) rfl rfl).1
      (Date.mk 2024 10 1) (by rfl)
    exact h.trans (by decide)
  · exact (@c1_fiscal_year_rule sampleFile sampleDf rfl 1
      (sampleDf.rows.getD 1 []) ((cleanDf sampleDf).rows.getD 1 []) rfl rfl).2 (by rfl)

/-- Claim C10: for every partition file containing all twelve required
source columns (i.e. whose read succeeds), cleaning preserves the row
count: the cleaned frame has exactly as many rows as the source file has
data rows, with no row dropped or added. -/
theorem c10_row_count {file : RawFile} {df : Df}
    (hread : readCsvUsecols USE_COLS file = Except.ok df) :
    (cleanDf df).rows.length = file.rows.length ∧
    (cleanDf df).rows.length = df.rows.length :=
  ⟨(cleanDf_rows_length df).trans (readCsv_rows_length hread), cleanDf_rows_length df⟩

/-- Witness for C10 on the two-row sample partition. -/
theorem c10_witness :
    (cleanDf sampleDf).rows.length = sampleFile.rows.length ∧
    (cleanDf sampleDf).rows.length = sampleDf.rows.length :=
  @c10_row_count sampleFile sampleDf rfl

/-- Claim C5: an `action_date` or `period_of_performance_start_date` value
that fails to parse as a date becomes null, and an award-amount value that
fails to parse as a decimal number (such as the non-numeric text
`1,234.50`) becomes null; the partition is still cleaned successfully
(no row, partition or run abort). -/
theorem c5_lenient_coercion {file : RawFile} {df : Df}
    (hread : readCsvUsecols USE_COLS file = Except.ok df) :
    process_fy [file] = Except.ok (some (cleanDf df)) ∧
    parseNumeric "1,234.50" = none ∧
    ∀ (i : Nat) (r r' : List Cell),
      df.rows[i]? = some r → (cleanDf df).rows[i]? = some r' →
      (∀ s, getCell df.cols r "action_date" = Cell.str s → parseDate s = none →
        getCell (cleanDf df).cols r' "action_date" = Cell.null) ∧
      (∀ s, getCell df.cols r "period_of_performance_start_date" = Cell.str s →
        parseDate s = none →
        getCell (cleanDf df).cols r' "period_of_performance_start_date" = Cell.null) ∧
      (∀ s, getCell df.cols r "federal_action_obligation" = Cell.str s →
        parseNumeric s = none →
        getCell (cleanDf df).cols r' "award_amount" = Cell.null) := by
  obtain ⟨-, hcells⟩ :=
    cleanDf_cells (readCsv_mem_sup hread) (readCsv_mem_sub hread) (readCsv_rowsWf hread)
  refine ⟨?_, by rfl, ?_⟩
  · simp only [process_fy]
    rw [hread]
  · intro i r r' hr hr'
    obtain ⟨r'', hR, had, hpop, haa, -, -⟩ := hcells i r hr
    have heq : r' = r'' := by rw [hr'] at hR; injection hR
    subst heq
    refine ⟨?_, ?_, ?_⟩
    · intro s hs hp
      rw [had, hs]
      simp [toDatetimeCoerce, hp]
    · intro s hs hp
      rw [hpop, hs]
      simp [toDatetimeCoerce, hp]
    · intro s hs hp
      rw [haa, hs]
      simp [toNumericCoerce, hp]

/-- Witness for C5: on the sample partition the `1,234.50` amount and the
`garbage` date of row 1 both clean to null and the partition is processed
successfully. -/
theorem c5_witness :
    process_fy [sampleFile] = Except.ok (some (cleanDf sampleDf)) ∧
    getCell (cleanDf sampleDf).cols ((cleanDf sampleDf).rows.getD 1 []) "award_amount"
      = Cell.null ∧
    getCell (cleanDf sampleDf).cols ((cleanDf sampleDf).rows.getD 1 []) "action_date"
      = Cell.null := by
  have h := @c5_lenient_coercion sampleFile sampleDf rfl
  refine ⟨h.1, ?_, ?_⟩
  · exact (h.2.2 1 (sampleDf.rows.getD 1 []) ((cleanDf sampleDf).rows.getD 1 []) rfl rfl).2.2
      "1,234.50" (by rfl) (by rfl)
  · exact (h.2.2 1 (sampleDf.rows.getD 1 []) ((cleanDf sampleDf).rows.getD 1 []) rfl rfl).1
      "garbage" (by rfl) (by rfl)

/-- Counterexample to claim C2 as stated: the source zip text `1234` cleans
to the present (non-null) value `1234`, which has 4 characters, not exactly
5; textual truncation does not pad short source values. -/
theorem c2_counterexample :
    readCsvUsecols USE_COLS zipFile = Except.ok zipDf ∧
    getCell (cleanDf zipDf).cols ((cleanDf zipDf).rows.getD 0 [])
      "primary_place_of_performance_zip_5" = Cell.str "1234" ∧
    ¬ ("1234" : String).length = 5 := by
  refine ⟨rfl, by rfl, by decide⟩

/-- Claim C2 (amended): the cleaned zip cell equals the first five
characters of the source zip+4 text (so it has at most — not exactly —
five characters when present), an exact `"nan"` truncation is normalized to
null, and a missing source value cleans to null. -/
theorem c2_zip_cleaning {file : RawFile} {df : Df}
    (hread : readCsvUsecols USE_COLS file = Except.ok df) :
    ∀ (i : Nat) (r r' : List Cell),
      df.rows[i]? = some r → (cleanDf df).rows[i]? = some r' →
      (getCell df.cols r "primary_place_of_performance_zip_4" = Cell.null →
        getCell (cleanDf df).cols r' "primary_place_of_performance_zip_5" = Cell.null) ∧
      (∀ s, getCell df.cols r "primary_place_of_performance_zip_4" = Cell.str s →
        getCell (cleanDf df).cols r' "primary_place_of_performance_zip_5"
          = (if String.mk (s.toList.take 5) == "nan" then Cell.null
             else Cell.str (String.mk (s.toList.take 5)))) ∧
      (∀ t, getCell (cleanDf df).cols r' "primary_place_of_performance_zip_5" = Cell.str t →
        t.length ≤ 5) := by
  obtain ⟨-, hcells⟩ :=
    cleanDf_cells (readCsv_mem_sup hread) (readCsv_mem_sub hread) (readCsv_rowsWf hread)
  intro i r r' hr hr'
  obtain ⟨r'', hR, -, -, -, hzip, -⟩ := hcells i r hr
  have heq : r' = r'' := by rw [hr'] at hR; injection hR
  subst heq
  refine ⟨?_, ?_, ?_⟩
  · intro hnull
    rw [hzip, hnull]
    rfl
  · intro s hs
    rw [hzip, hs]
    rfl
  · intro t ht
    have hsh := @getCell_shape df.cols r "primary_place_of_performance_zip_4"
      (fun x hx => readCsv_cell_shape hread r (List.getElem?_mem hr) x hx)
    rcases hsh with hnull | ⟨s, hs⟩
    · rw [hzip, hnull] at ht
      simp [zipClean] at ht
    · rw [hzip, hs] at ht
      by_cases hb : String.mk (s.toList.take 5) == "nan"
      · have hz : zipClean (Cell.str s) = Cell.null := by
          show (if String.mk (s.toList.take 5) == "nan" then Cell.null
                else Cell.str (String.mk (s.toList.take 5))) = Cell.null
          rw [if_pos hb]
        rw [hz] at ht
        simp at ht
      · have h2 : Cell.str (String.mk (s.toList.take 5)) = Cell.str t := by
          rw [← ht]
          symm
          show (if String.mk (s.toList.take 5) == "nan" then Cell.null
                else Cell.str (String.mk (s.toList.take 5)))
            = Cell.str (String.mk (s.toList.take 5))
          rw [if_neg hb]
        injection h2 with h2
        calc t.length = (s.toList.take 5).length := by rw [← h2]; rfl
          _ ≤ 5 := by rw [List.length_take]; omega

/-- Witness for the amended C2: source `123456789` cleans to `12345` and a
missing source value cleans to null. -/
theorem c2_witness :
    getCell (cleanDf sampleDf).cols ((cleanDf sampleDf).rows.getD 0 [])
      "primary_place_of_performance_zip_5" = Cell.str "12345" ∧
    getCell (cleanDf sampleDf).cols ((cleanDf sampleDf).rows.getD 1 [])
      "primary_place_of_performance_zip_5" = Cell.null := by
  have h0 := @c2_zip_cleaning sampleFile sampleDf rfl 0
    (sampleDf.rows.getD 0 []) ((cleanDf sampleDf).rows.getD 0 []) rfl rfl
  have h1 := @c2_zip_cleaning sampleFile sampleDf rfl 1
    (sampleDf.rows.getD 1 []) ((cleanDf sampleDf).rows.getD 1 []) rfl rfl
  constructor
  · have := h0.2.1 "123456789" (by rfl)
    exact this.trans (by decide)
  · exact h1.1 (by rfl)

/-- The thirteen canonical fields: the twelve renamed fields plus the
derived `fiscal_year`. -/
def canonicalFields : List String := COLUMN_MAP.map (·.1) ++ ["fiscal_year"]

/-- Claim C7: every cleaned partition frame has exactly the thirteen
canonical fields (as a permutation, with no duplicates), regardless of the
raw file's column order. -/
theorem c7_schema {file : RawFile} {df : Df}
    (hread : readCsvUsecols USE_COLS file = Except.ok df) (hnd : file.header.Nodup) :
    (cleanDf df).cols.Perm canonicalFields ∧
    (cleanDf df).cols.length = 13 ∧ (cleanDf df).cols.Nodup := by
  obtain ⟨hcols, -⟩ :=
    cleanDf_cells (readCsv_mem_sup hread) (readCsv_mem_sub hread) (readCsv_rowsWf hread)
  have hperm0 : df.cols.Perm USE_COLS := by
    rw [List.perm_ext_iff_of_nodup (readCsv_cols_nodup hread hnd) (by decide)]
    intro a
    exact ⟨fun ha => readCsv_mem_sub hread a ha, fun ha => readCsv_mem_sup hread a ha⟩
  have hperm1 : (df.cols.map renameLookup).Perm (COLUMN_MAP.map (·.1)) := by
    have := hperm0.map renameLookup
    rw [show USE_COLS.map renameLookup = COLUMN_MAP.map (·.1) from by decide] at this
    exact this
  have hperm : (cleanDf df).cols.Perm canonicalFields := by
    rw [hcols]
    exact hperm1.append_right _
  exact ⟨hperm, hperm.length_eq.trans (by decide), hperm.nodup_iff.2 (by decide)⟩

/-- Witness for C7 on the sample partition. -/
theorem c7_witness :
    (cleanDf sampleDf).cols.Perm canonicalFields ∧
    (cleanDf sampleDf).cols.length = 13 ∧ (cleanDf sampleDf).cols.Nodup :=
  @c7_schema sampleFile sampleDf rfl (by decide)

/-- Claim C3: a nonempty partition whose selected file is missing a required
source column makes the whole run end in a fatal error, and a run in which
every partition is empty (zero partitions read) also ends in a fatal error;
in either case no `MainOutput` is produced, so no output file is written. -/
theorem c3_fatal_conditions (partitions : List (List RawFile)) :
    ((∃ p ∈ partitions, ∃ (f : RawFile) (rest : List RawFile), p = f :: rest ∧
        ∃ c ∈ USE_COLS, c ∉ f.header) →
      ∃ e, runMain partitions = Except.error e) ∧
    ((∀ p ∈ partitions, p = ([] : List RawFile)) →
      ∃ e, runMain partitions = Except.error e) := by
  constructor
  · intro h
    obtain ⟨e, he⟩ := collectFrames_error_of_bad h
    exact ⟨e, runMain_error_of_collect_error he⟩
  · intro h
    exact ⟨_, runMain_error_of_collect_nil (collectFrames_all_empty h)⟩

/-- Witness for C3: a run over one partition holding a file with only an
`action_date` column aborts, and a run over two empty partitions aborts. -/
theorem c3_witness :
    (∃ e, runMain [[badFile]] = Except.error e) ∧
    (∃ e, runMain [[], []] = Except.error e) := by
  constructor
  · exact (c3_fatal_conditions [[badFile]]).1
      ⟨[badFile], by simp, badFile, [], rfl, "federal_action_obligation", by decide, by decide⟩
  · exact (c3_fatal_conditions [[], []]).2 (by intro p hp; fin_cases hp <;> rfl)

/-- Claim C4: a partition directory with zero matching files is skipped
(`process_fy` yields no frame and no error) and the run behaves exactly as
if that partition were absent, so it contributes zero rows and the
remaining partitions are still processed. -/
theorem c4_missing_partition (pre post : List (List RawFile)) :
    process_fy ([] : List RawFile) = Except.ok none ∧
    runMain (pre ++ ([] : List RawFile) :: post) = runMain (pre ++ post) :=
  ⟨rfl, runMain_congr (collectFrames_skip_empty pre post)⟩

/-- Claim C6: the combined dataset of a successful run is exactly the
concatenation, in partition-label iteration order (`FY2017` … `FY2025`), of
the successfully cleaned partition frames (each row aligned to the combined
column list), with no row filtering and no deduplication, and its row count
is the sum of the per-partition row counts. -/
theorem c6_concat {fsys : String → List RawFile} {out : MainOutput}
    (h : mainRun fsys = Except.ok out) :
    ∃ frames : List Df, frames ≠ [] ∧
      collectFrames (FY_FOLDERS.map fsys) = Except.ok frames ∧
      out.combined.rows
        = (frames.map (fun f =>
            f.rows.map (fun r => projectRow f.cols r out.combined.cols))).flatten ∧
      out.combined.rows.length = (frames.map (fun f => f.rows.length)).sum := by
  obtain ⟨f, fs, hcf, hcomb, -, -, -⟩ :=
    runMain_ok_inv (h : runMain (FY_FOLDERS.map fsys) = Except.ok out)
  refine ⟨f :: fs, by simp, hcf, ?_, ?_⟩
  · rw [hcomb]
    rfl
  · rw [hcomb]
    exact concatFrames_length _

/-- Witness for C6: the run whose only data is two rows in the FY2017
partition. -/
theorem c6_witness :
    ∃ frames : List Df, frames ≠ [] ∧
      collectFrames (FY_FOLDERS.map sampleFs) = Except.ok frames ∧
      sampleMainOut.combined.rows
        = (frames.map (fun f =>
            f.rows.map (fun r => projectRow f.cols r sampleMainOut.combined.cols))).flatten ∧
      sampleMainOut.combined.rows.length = (frames.map (fun f => f.rows.length)).sum :=
  @c6_concat sampleFs sampleMainOut rfl

/-- Claim C8: the verification summary of a successful run counts the
combined rows per observed fiscal year (nulls excluded) in ascending
fiscal-year order, its grand total is the combined row count, and the
missing-years advisory is exactly the set difference between the expected
years 2017–2025 and the observed ones. -/
theorem c8_summary {partitions : List (List RawFile)} {out : MainOutput}
    (h : runMain partitions = Except.ok out) :
    List.Sorted (· ≤ ·) (out.counts.map (·.1)) ∧
    (out.counts.map (·.1)).Perm (observedFys out.combined).dedup ∧
    (∀ p ∈ out.counts, p.2 = (observedFys out.combined).count p.1) ∧
    out.total = out.combined.rows.length ∧
    (∀ y : Int, y ∈ out.missing ↔ y ∈ expectedFys ∧ y ∉ observedFys out.combined) := by
  obtain ⟨f, fs, -, -, htot, hcounts, hmissing⟩ := runMain_ok_inv h
  refine ⟨?_, ?_, ?_, htot, ?_⟩
  · rw [hcounts, fyCounts_keys]
    exact List.sorted_insertionSort _ _
  · rw [hcounts, fyCounts_keys]
    exact List.perm_insertionSort _ _
  · intro p hp
    rw [hcounts] at hp
    unfold fyCountsOf at hp
    obtain ⟨y, -, rfl⟩ := List.mem_map.1 hp
    rfl
  · rw [hmissing]
    exact missingFys_iff _

/-- Witness for C8 on the one-partition sample run. -/
theorem c8_witness :
    List.Sorted (· ≤ ·) (sampleOut.counts.map (·.1)) ∧
    (sampleOut.counts.map (·.1)).Perm (observedFys sampleOut.combined).dedup ∧
    (∀ p ∈ sampleOut.counts, p.2 = (observedFys sampleOut.combined).count p.1) ∧
    sampleOut.total = sampleOut.combined.rows.length ∧
    (∀ y : Int, y ∈ sampleOut.missing ↔
      y ∈ expectedFys ∧ y ∉ observedFys sampleOut.combined) :=
  @c8_summary [[sampleFile]] sampleOut rfl

/-- Claim C9: rows with a null action date are retained and counted in the
printed grand total but belong to no per-fiscal-year group, so the grand
total is at least the sum of the per-group counts, with equality exactly
when every combined row has a non-null action date. -/
theorem c9_null_dates {partitions : List (List RawFile)} {out : MainOutput}
    (h : runMain partitions = Except.ok out) :
    out.total = out.combined.rows.length ∧
    (out.counts.map (·.2)).sum ≤ out.total ∧
    ((out.counts.map (·.2)).sum = out.total ↔
      ∀ r ∈ out.combined.rows, getCell out.combined.cols r "action_date" ≠ Cell.null) := by
  obtain ⟨f, fs, -, -, htot, hcounts, -⟩ := runMain_ok_inv h
  obtain ⟨-, -, hinv⟩ := runMain_combined_inv h
  have hsum : (out.counts.map (·.2)).sum = (observedFys out.combined).length := by
    rw [hcounts]
    exact fyCounts_sum _
  refine ⟨htot, ?_, ?_⟩
  · rw [hsum, htot]
    exact List.length_filterMap_le _ _
  · rw [hsum, htot]
    unfold observedFys
    rw [length_filterMap_eq_iff]
    constructor
    · intro hall r hr hnull
      have h1 := hall r hr
      have h2 := (hinv r hr).2
      rw [hnull] at h2
      simp [h2, computeFiscalYearCell] at h1
    · intro hall r hr
      rcases (hinv r hr).1 with hnull | ⟨d, hdate⟩
      · exact absurd hnull (hall r hr)
      · have h2 := (hinv r hr).2
        rw [hdate] at h2
        simp [h2, computeFiscalYearCell]

/-- Witness for C9 on the one-partition sample run (one dated row, one
null-date row). -/
theorem c9_witness :
    sampleOut.total = sampleOut.combined.rows.length ∧
    (sampleOut.counts.map (·.2)).sum ≤ sampleOut.total ∧
    ((sampleOut.counts.map (·.2)).sum = sampleOut.total ↔
      ∀ r ∈ sampleOut.combined.rows,
        getCell sampleOut.combined.cols r "action_date" ≠ Cell.null) :=
  @c9_null_dates [[sampleFile]] sampleOut rfl
